import Mathlib

/-!
Shallow embedding of the two scripts of this repository,
`skills/scripts/cf_api.py` (an authenticated HTTP request forwarder for the
Cloudflare REST API) and `skills/scripts/cf_schema.py` (a fetch/cache/query
tool for the Cloudflare OpenAPI schema), together with theorems settling the
claims about them.

Modelling conventions, shared by all definitions below:
* JSON documents are the inductive type `Json`; Python dicts are association
  lists in insertion order (keys unique, as in a Python dict).
* Machine-level effects are passed explicitly: the process environment is an
  `Env` record, the cache directory is a `CacheState` record, the network is
  an oracle argument (`Option Json` for the single schema download,
  `Request → HttpOutcome` for the API forwarder).
* A Python exception is `Option.none` / `Except.error`; timestamps are
  integer seconds, so `datetime.now() - cached_at < timedelta(hours=24)`
  becomes `now - cachedAt < 24 * 3600`.
-/

namespace CfVerify

/-- JSON values.  Numbers are modelled as integers (the schema tool only ever
stores counts and the claims never involve fractional numbers).  Objects are
association lists in Python-dict insertion order. -/
inductive Json where
  | null : Json
  | bool : Bool → Json
  | num : Int → Json
  | str : String → Json
  | arr : List Json → Json
  | obj : List (String × Json) → Json

/-- Python `d[k]` on a dict, `None`-free: first value bound to `k`, `none`
when the key is absent or the value is not a dict (a Python exception). -/
def Json.getKey : Json → String → Option Json
  | Json.obj kvs, k => List.lookup k kvs
  | _, _ => none

/-- The association list of a JSON object, `none` for any other value
(Python raises when a non-dict is iterated with `.items()`). -/
def Json.asObj : Json → Option (List (String × Json))
  | Json.obj kvs => some kvs
  | _ => none

/-- `isinstance(v, dict)`. -/
def Json.isObj : Json → Bool
  | Json.obj _ => true
  | _ => false

/-- Python `d.get(k, default)`: `none` models the `AttributeError` raised
when the receiver is not a dict. -/
def pyDictGet (j : Json) (k : String) (d : Json) : Option Json :=
  match j with
  | Json.obj kvs => some ((List.lookup k kvs).getD d)
  | _ => none

/-- Python `len`: defined on strings, lists and dicts, an exception
(`none`) on numbers, booleans and `None`. -/
def pyLen : Json → Option Int
  | Json.str s => some s.length
  | Json.arr xs => some xs.length
  | Json.obj kvs => some kvs.length
  | _ => none

/-- Python truthiness of a JSON value. -/
def pyTruthy : Json → Bool
  | Json.null => false
  | Json.bool b => b
  | Json.num n => n != 0
  | Json.str s => !s.isEmpty
  | Json.arr xs => !xs.isEmpty
  | Json.obj kvs => !kvs.isEmpty

/-- Whether the character list `needle` occurs at the head of `l`. -/
def listStarts : List Char → List Char → Bool
  | [], _ => true
  | _ :: _, [] => false
  | a :: as, b :: bs => a == b && listStarts as bs

/-- Whether `needle` occurs contiguously anywhere in `l`. -/
def containsAux (needle : List Char) : List Char → Bool
  | [] => needle.isEmpty
  | c :: rest => listStarts needle (c :: rest) || containsAux needle rest

/-- Python `needle in hay` on strings: contiguous substring test. -/
def containsSub (hay needle : String) : Bool :=
  containsAux needle.data hay.data

/-- Python `s.upper()`, modelled character-wise (the scripts only ever
uppercase ASCII method names). -/
def pyUpper (s : String) : String :=
  ⟨s.data.map Char.toUpper⟩

/-- Python `s.lower()`, modelled character-wise. -/
def pyLower (s : String) : String :=
  ⟨s.data.map Char.toLower⟩

/-- Python `s.startswith(pre)`. -/
def pyStartsWith (s pre : String) : Bool :=
  listStarts pre.data s.data

/-- Python `s[n:]` for a non-negative index. -/
def strDrop (s : String) (n : Nat) : String :=
  ⟨s.data.drop n⟩

/-- Accumulator loop of `s.split("/")`. -/
def splitSlashAux (acc : List Char) : List Char → List String
  | [] => [String.mk acc.reverse]
  | c :: rest =>
    if c == '/' then String.mk acc.reverse :: splitSlashAux [] rest
    else splitSlashAux (c :: acc) rest

/-- Python `s.split("/")` (the only separator the source splits on). -/
def splitSlash (s : String) : List String :=
  splitSlashAux [] s.data

/-! ## cf_api.py -/

/-- The environment variables read by `cf_api.py`.  A variable that is unset
is `none`; a variable set to the empty string is `some ""` (which Python
truthiness treats like unset for the three credential variables). -/
structure Env where
  token : Option String
  apiKey : Option String
  email : Option String
  baseUrlVar : Option String

/-- Python truthiness of `os.environ.get(...)`: false for unset and for the
empty string. -/
def truthyStr : Option String → Bool
  | some s => !s.isEmpty
  | none => false

/-- Module-level `BASE_URL = os.environ.get("CLOUDFLARE_BASE_URL", ...)`,
lifted to a function of the environment. -/
def BASE_URL (env : Env) : String :=
  env.baseUrlVar.getD "https://api.cloudflare.com/client/v4"

/-- `get_auth_headers` of cf_api.py: Bearer-token scheme when
`CLOUDFLARE_API_TOKEN` is truthy, else the key+email scheme when both
`CLOUDFLARE_API_KEY` and `CLOUDFLARE_EMAIL` are truthy, else no headers. -/
def get_auth_headers (env : Env) : List (String × String) :=
  if truthyStr env.token then
    [("Authorization", "Bearer " ++ env.token.getD "")]
  else if truthyStr env.apiKey && truthyStr env.email then
    [("X-Auth-Key", env.apiKey.getD ""), ("X-Auth-Email", env.email.getD "")]
  else
    []

/-- The message returned by `check_auth` when no credentials are set. -/
def noAuthMsg : String :=
  "No authentication configured. Set CLOUDFLARE_API_TOKEN or (CLOUDFLARE_API_KEY + CLOUDFLARE_EMAIL)"

/-- `check_auth` of cf_api.py. -/
def check_auth (env : Env) : Bool × String :=
  let headers := get_auth_headers env
  if headers.isEmpty then
    (false, noAuthMsg)
  else if (List.lookup "Authorization" headers).isSome then
    (true, "Using API Token authentication")
  else
    (true, "Using API Key + Email authentication")

/-- An outbound HTTP request as assembled by `make_request`. -/
structure Request where
  method : String
  url : String
  headers : List (String × String)
  data : Option String

/-- The body text of an HTTP response, classified by what `json.loads`
does to it: empty, parses to a JSON value, or raises. -/
inductive HttpBody where
  | empty : HttpBody
  | parsed : Json → HttpBody
  | malformed : String → HttpBody

/-- The outcome of `urllib.request.urlopen` on a request: a 2xx response,
an `HTTPError` carrying a status code / reason / body, a `URLError`, or any
other exception. -/
inductive HttpOutcome where
  | ok : HttpBody → HttpOutcome
  | httpError : Int → String → HttpBody → HttpOutcome
  | urlError : String → HttpOutcome
  | otherError : String → HttpOutcome

/-- Modelled text of `str(e)` for a `json.JSONDecodeError`; its exact
content is irrelevant to every claim. -/
def jsonDecodeErrorMsg (t : String) : String :=
  "JSON decode error: " ++ t.take 500

/-- The dict `make_request` returns for a given HTTP outcome: the parsed
2xx body (or `{"success": True}` when empty), the parsed error body of an
`HTTPError` (or a synthesised failure dict when that body does not parse),
and synthesised failure dicts for the remaining exception arms. -/
def responseToJson : HttpOutcome → Json
  | HttpOutcome.ok HttpBody.empty => Json.obj [("success", Json.bool true)]
  | HttpOutcome.ok (HttpBody.parsed j) => j
  | HttpOutcome.ok (HttpBody.malformed t) =>
      Json.obj [("success", Json.bool false),
        ("errors", Json.arr [Json.obj [("message", Json.str (jsonDecodeErrorMsg t))]])]
  | HttpOutcome.httpError code reason HttpBody.empty =>
      Json.obj [("success", Json.bool false),
        ("errors", Json.arr [Json.obj [("code", Json.num code),
          ("message", Json.str (reason ++ ": "))]])]
  | HttpOutcome.httpError _ _ (HttpBody.parsed j) => j
  | HttpOutcome.httpError code reason (HttpBody.malformed t) =>
      Json.obj [("success", Json.bool false),
        ("errors", Json.arr [Json.obj [("code", Json.num code),
          ("message", Json.str (reason ++ ": " ++ t.take 500))]])]
  | HttpOutcome.urlError reason =>
      Json.obj [("success", Json.bool false),
        ("errors", Json.arr [Json.obj [("message", Json.str ("Connection error: " ++ reason))]])]
  | HttpOutcome.otherError msg =>
      Json.obj [("success", Json.bool false),
        ("errors", Json.arr [Json.obj [("message", Json.str msg)]])]

/-- `make_request` of cf_api.py.  Returns the result dict together with the
request that was issued (`none` when authentication was refused and no
request went out).  The network is the oracle `http`. -/
def make_request (env : Env) (method path : String) (body : Option String)
    (http : Request → HttpOutcome) : Json × Option Request :=
  let auth := check_auth env
  if !auth.1 then
    (Json.obj [("success", Json.bool false),
      ("errors", Json.arr [Json.obj [("message", Json.str auth.2)]])], none)
  else
    let url :=
      if pyStartsWith path "http" then path
      else if pyStartsWith path "/" then BASE_URL env ++ path
      else BASE_URL env ++ ("/" ++ path)
    let headers := get_auth_headers env ++ [("Content-Type", "application/json")]
    let data : Option String :=
      match body with
      | some b => if b.isEmpty then none else some b
      | none => none
    let req : Request := ⟨method, url, headers, data⟩
    (responseToJson (http req), some req)

/-- Truthiness of `result.get("success")`.  For a non-dict result the
attribute access raises in `format_response`, which makes the process exit
with code 1, the same exit code as a falsy lookup, so `false` here models
both. -/
def successTruthy (result : Json) : Bool :=
  match result.getKey "success" with
  | some v => pyTruthy v
  | none => false

/-- The methods accepted by cf_api.py besides `verify`. -/
def httpMethods : List String := ["GET", "POST", "PUT", "PATCH", "DELETE"]

/-- What one run of cf_api.py did: its process exit code and the HTTP
request it issued, if any. -/
structure RunResult where
  exitCode : Nat
  request : Option Request

/-- `main` of cf_api.py on argument list `args` (the arguments after the
script name).  `jparse` is the oracle for `json.loads` on the command-line
body argument (`none` = raises).  A run that ends in an uncaught exception
exits with code 1, like an explicit `sys.exit(1)`. -/
def cfApiMain (env : Env) (args : List String) (jparse : String → Option Json)
    (http : Request → HttpOutcome) : RunResult :=
  match args with
  | [] => ⟨1, none⟩
  | cmdArg :: rest =>
    let cmd := pyUpper cmdArg
    if cmd == "VERIFY" then
      if (check_auth env).1 then
        let r := make_request env "GET" "/user/tokens/verify" none http
        -- format_response raises on a non-dict result, turning exit 0 into 1
        ⟨if r.1.isObj then 0 else 1, r.2⟩
      else ⟨1, none⟩
    else if !(httpMethods.contains cmd) then ⟨1, none⟩
    else
      match rest with
      | [] => ⟨1, none⟩
      | path :: rest2 =>
        match rest2.head? with
        | some b =>
          if !b.isEmpty && (jparse b).isNone then ⟨1, none⟩
          else
            let r := make_request env cmd path (some b) http
            ⟨if successTruthy r.1 then 0 else 1, r.2⟩
        | none =>
          let r := make_request env cmd path none http
          ⟨if successTruthy r.1 then 0 else 1, r.2⟩

/-! ## cf_schema.py: cache -/

/-- The fixed cache TTL of cf_schema.py, in hours. -/
def CACHE_HOURS : Int := 24

/-- The contents of the cache directory of cf_schema.py.  For each of the
two files, the outer `Option` is existence on disk and the inner `Option`
is what `json.loads` makes of its text (`none` = raises). -/
structure CacheState where
  cacheFile : Option (Option Json)
  cacheMeta : Option (Option Json)

/-- Modelled `datetime.fromisoformat` on the stored `cached_at` value:
timestamps are integer seconds, so it succeeds exactly on a numeric value
(on anything else the source raises, which `is_cache_valid` catches). -/
def fromIso : Json → Option Int
  | Json.num t => some t
  | _ => none

/-- `is_cache_valid` of cf_schema.py: both cache files exist, the metadata
parses, its `cached_at` field parses as a timestamp, and the recorded age
is strictly below the 24-hour TTL; any exception yields `false`. -/
def is_cache_valid (s : CacheState) (now : Int) : Bool :=
  match s.cacheFile, s.cacheMeta with
  | some _, some metaText =>
    match metaText with
    | some meta =>
      match meta.getKey "cached_at" with
      | some v =>
        match fromIso v with
        | some cachedAt => decide (now - cachedAt < CACHE_HOURS * 3600)
        | none => false
      | none => false
    | none => false
  | _, _ => false

/-- The metadata dict written by `fetch_schema`; `none` when building it
raises (a non-dict schema or info section, or an unsizable paths value). -/
def mkMeta (schema : Json) (now : Int) : Option Json := do
  let info ← pyDictGet schema "info" (Json.obj [])
  let version ← pyDictGet info "version" (Json.str "unknown")
  let pathsJ ← pyDictGet schema "paths" (Json.obj [])
  let n ← pyLen pathsJ
  some (Json.obj [("cached_at", Json.num now), ("version", version),
    ("paths_count", Json.num n)])

/-- What a run of `fetch_schema` / `load_schema` produced: the schema it
returned, the cache directory afterwards, and whether the network was
contacted. -/
structure FetchResult where
  schema : Json
  state : CacheState
  fetched : Bool

/-- The `except` handler of `fetch_schema`: fall back to the cache file if
it exists and parses, else let the error propagate. -/
def fetchFallback (s : CacheState) : Except Unit FetchResult :=
  match s.cacheFile with
  | some (some j) => Except.ok ⟨j, s, true⟩
  | _ => Except.error ()

/-- `fetch_schema` of cf_schema.py.  `net` is the network oracle for the
single schema download: `some schema` when the download, decode and
`json.loads` succeed, `none` when any of them raises. -/
def fetch_schema (force : Bool) (s : CacheState) (now : Int) (net : Option Json) :
    Except Unit FetchResult :=
  if !force && is_cache_valid s now then
    match s.cacheFile with
    | some (some j) => Except.ok ⟨j, s, false⟩
    | _ => Except.error ()
  else
    match net with
    | some schema =>
      -- CACHE_FILE is written first; if building the metadata dict then
      -- raises, control reaches the except handler with the file updated
      let s1 : CacheState := { s with cacheFile := some (some schema) }
      match mkMeta schema now with
      | some meta => Except.ok ⟨schema, { s1 with cacheMeta := some (some meta) }, true⟩
      | none => fetchFallback s1
    | none => fetchFallback s

/-- `load_schema` of cf_schema.py. -/
def load_schema (s : CacheState) (now : Int) (net : Option Json) :
    Except Unit FetchResult :=
  if is_cache_valid s now then
    match s.cacheFile with
    | some (some j) => Except.ok ⟨j, s, false⟩
    | _ => Except.error ()
  else
    fetch_schema false s now net

/-! ## cf_schema.py: queries -/

/-- Python `spec.get(k, default)` for a field that the source then treats
as a string.  A present non-string value is modelled as raising, which the
source would also do (on slicing or measuring it) once the entry matters. -/
def getStrD (spec : Json) (k : String) (d : String) : Option String :=
  match spec.getKey k with
  | none => some d
  | some (Json.str s) => some s
  | some _ => none

/-- The body of the inner loop of `search_endpoints`: `some none` when the
(method, spec) pair is skipped or does not match, `some (some row)` when it
matches, `none` when a field access raises. -/
def searchRow (queryLower path method : String) (spec : Json) : Option (Option Json) :=
  if pyStartsWith method "x-" || method == "parameters" then some none
  else if !spec.isObj then some none
  else do
    let summary ← getStrD spec "summary" ""
    let description ← getStrD spec "description" ""
    let operationId ← getStrD spec "operationId" ""
    let searchable := pyLower (path ++ " " ++ summary ++ " " ++ description ++ " " ++ operationId)
    if containsSub searchable queryLower then
      some (some (Json.obj [("path", Json.str path),
        ("method", Json.str (pyUpper method)),
        ("summary", Json.str (if summary.length > 100 then summary.take 100 ++ "..." else summary)),
        ("operationId", Json.str operationId)]))
    else
      some none

/-- The inner `for method, spec in methods.items()` loop of
`search_endpoints`, collecting matching rows in order. -/
def searchMethods (queryLower path : String) : List (String × Json) → Option (List Json)
  | [] => some []
  | (method, spec) :: rest => do
    let r ← searchRow queryLower path method spec
    let more ← searchMethods queryLower path rest
    some (match r with
      | some row => row :: more
      | none => more)

/-- The outer `for path, methods in paths.items()` loop of
`search_endpoints`. -/
def searchPaths (queryLower : String) : List (String × Json) → Option (List Json)
  | [] => some []
  | (path, methodsJ) :: rest => do
    let ms ← methodsJ.asObj
    let rows ← searchMethods queryLower path ms
    let more ← searchPaths queryLower rest
    some (rows ++ more)

/-- `search_endpoints` of cf_schema.py. -/
def search_endpoints (query : String) (schema : Json) : Option (List Json) := do
  let pathsJ ← pyDictGet schema "paths" (Json.obj [])
  let ps ← pathsJ.asObj
  searchPaths (pyLower query) ps

/-- `get_endpoint` of cf_schema.py: exact key, then the key with a leading
slash added, then the first key containing the requested path as a
substring; `some none` is Python's `return None`. -/
def get_endpoint (path : String) (schema : Json) : Option (Option Json) := do
  let pathsJ ← pyDictGet schema "paths" (Json.obj [])
  let ps ← pathsJ.asObj
  match List.lookup path ps with
  | some ms => some (some (Json.obj [("path", Json.str path), ("methods", ms)]))
  | none =>
    let altPath := if pyStartsWith path "/" then path else "/" ++ path
    match List.lookup altPath ps with
    | some ms => some (some (Json.obj [("path", Json.str altPath), ("methods", ms)]))
    | none =>
      match ps.find? (fun kv => containsSub kv.1 path) with
      | some kv => some (some (Json.obj [("path", Json.str kv.1), ("methods", kv.2)]))
      | none => some none

/-! ## cf_schema.py: $ref resolution and expansion -/

/-- The part-by-part descent loop of `resolve_ref`. -/
def resolveGo (ref : String) : List String → Json → Json
  | [], cur => cur
  | part :: rest, cur =>
    match cur with
    | Json.obj kvs =>
      match List.lookup part kvs with
      | some v => resolveGo ref rest v
      | none => Json.obj [("$ref", Json.str ref), ("_error", Json.str "Could not resolve")]
    | _ => Json.obj [("$ref", Json.str ref), ("_error", Json.str "Could not resolve")]

/-- `resolve_ref` of cf_schema.py: external refs are returned unresolved,
internal ones are followed part by part from the schema root, and a failed
step yields an error object instead of raising. -/
def resolve_ref (ref : String) (schema : Json) : Json :=
  if !(pyStartsWith ref "#/") then Json.obj [("$ref", Json.str ref)]
  else resolveGo ref (splitSlash (strDrop ref 2)) schema

/-- The Python condition for a pure reference object:
a dict whose single key is the string "$ref". -/
def isRefSingleton (kvs : List (String × Json)) : Bool :=
  (List.lookup "$ref" kvs).isSome && kvs.length == 1

/-- The inner `expand` closure of `expand_endpoint_spec`.  Depth is an
integer as in the source; a singleton reference object is replaced by its
resolution at decremented depth, other dicts and lists are mapped over at
the same depth, and `none` models the exception raised when a `$ref` value
is not a string. -/
def expandRefs (schema : Json) (d : Int) (obj : Json) : Option Json :=
  if d ≤ 0 then some obj
  else
    match obj with
    | Json.obj kvs =>
      if isRefSingleton kvs then
        match List.lookup "$ref" kvs with
        | some (Json.str r) => expandRefs schema (d - 1) (resolve_ref r schema)
        | _ => none
      else
        (kvs.attach.mapM (fun kv =>
          (expandRefs schema d kv.1.2).map (fun v => (kv.1.1, v)))).map Json.obj
    | Json.arr xs =>
      (xs.attach.mapM (fun x => expandRefs schema d x.1)).map Json.arr
    | other => some other
termination_by (d.toNat, sizeOf obj)
decreasing_by
  · apply Prod.Lex.left
    omega
  · apply Prod.Lex.right
    have h1 := List.sizeOf_lt_of_mem kv.2
    rcases kv with ⟨⟨a, b⟩, hk⟩
    simp at h1 ⊢
    omega
  · apply Prod.Lex.right
    have h1 := List.sizeOf_lt_of_mem x.2
    simp at h1 ⊢
    omega

/-- `expand_endpoint_spec` of cf_schema.py (default depth 2). -/
def expand_endpoint_spec (endpoint : Json) (schema : Json) (depth : Int := 2) :
    Option Json :=
  if depth ≤ 0 then some endpoint
  else expandRefs schema depth endpoint

/-! ## Claim-side definitions for the search claim

The definitions in this block are NOT translated from the source: they
follow the words of the claim about `search_endpoints`, to be compared
with the source translation above. -/

/-- Claim-side projection: the spec's summary / description / operationId
as a string when present, the empty string when absent. -/
def strFieldD (spec : Json) (k : String) : String :=
  match spec.getKey k with
  | some (Json.str s) => s
  | _ => ""

/-- Whether a searched field is absent or a string; the claim presupposes
string-valued summary, description and operationId. -/
def strFieldOk (spec : Json) (k : String) : Bool :=
  match spec.getKey k with
  | none => true
  | some (Json.str _) => true
  | some _ => false

/-- All three searched fields of a spec are absent-or-string. -/
def wfSpecFields (spec : Json) : Bool :=
  strFieldOk spec "summary" && strFieldOk spec "description" &&
    strFieldOk spec "operationId"

/-- Well-formedness of one (method, spec) entry for the search
equivalence: either the entry is skipped / non-dict, or its searched
fields are strings. -/
def wfMethodEntry (kv : String × Json) : Bool :=
  pyStartsWith kv.1 "x-" || kv.1 == "parameters" || !kv.2.isObj || wfSpecFields kv.2

/-- Well-formedness of one (path, methods) entry: the methods value is a
dict whose entries are well formed. -/
def wfPathEntry (pm : String × Json) : Bool :=
  pm.2.isObj && (pm.2.asObj.getD []).all wfMethodEntry

/-- Well-formedness of a paths table for the search equivalence. -/
def wfPaths (ps : List (String × Json)) : Bool :=
  ps.all wfPathEntry

/-- Claim-side search row, written from the claim's words: skipping method
keys starting with x-, the parameters key and non-dict specs, a result
exactly when the lowercased query occurs as a substring of the
space-joined lowercased concatenation of path, summary, description and
operationId, the result carrying the path, the uppercased method, the
summary truncated to 100 characters plus "..." when longer, and the
operationId. -/
def claimSearchRow (queryLower path method : String) (spec : Json) : Option Json :=
  if pyStartsWith method "x-" || method == "parameters" || !spec.isObj then none
  else
    let summary := strFieldD spec "summary"
    let description := strFieldD spec "description"
    let operationId := strFieldD spec "operationId"
    if containsSub
        (pyLower (path ++ " " ++ summary ++ " " ++ description ++ " " ++ operationId))
        queryLower then
      some (Json.obj [("path", Json.str path),
        ("method", Json.str (pyUpper method)),
        ("summary", Json.str (if summary.length > 100 then summary.take 100 ++ "..." else summary)),
        ("operationId", Json.str operationId)])
    else none

/-- Claim-side search result: one candidate row per (path, method) pair of
the schema's paths, in order. -/
def claimSearch (queryLower : String) (ps : List (String × Json)) : List Json :=
  ps.flatMap (fun pm =>
    (pm.2.asObj.getD []).filterMap (fun kv => claimSearchRow queryLower pm.1 kv.1 kv.2))

/-! ## Helper lemmas -/

theorem lookup_head (k : String) (v : Json) (rest : List (String × Json)) :
    List.lookup k ((k, v) :: rest) = some v := by
  simp [List.lookup]

theorem truthy_some (s : String) (h : s ≠ "") : truthyStr (some s) = true := by
  have he : s.isEmpty = false := by
    cases hh : s.isEmpty
    · rfl
    · exact absurd ((String.isEmpty_iff s).mp hh) h
  simp [truthyStr, he]

/-! ## Claims about the schema cache -/

/-- C3: the cached schema is considered fresh exactly when the recorded
cache age is strictly below the fixed 24-hour TTL; with a timestamp older
than 24 hours the comparison fails, and with a missing cache file, missing
metadata file, or unparseable metadata the check reports stale. -/
theorem c3_cache_ttl :
    (∀ (c : Option Json) (meta : Json) (t now : Int),
        meta.getKey "cached_at" = some (Json.num t) →
        is_cache_valid ⟨some c, some (some meta)⟩ now = decide (now - t < 24 * 3600))
    ∧ (∀ (m : Option (Option Json)) (now : Int), is_cache_valid ⟨none, m⟩ now = false)
    ∧ (∀ (c : Option (Option Json)) (now : Int), is_cache_valid ⟨c, none⟩ now = false)
    ∧ (∀ (c : Option Json) (now : Int), is_cache_valid ⟨some c, some none⟩ now = false) := by
  refine ⟨?_, ?_, ?_, ?_⟩
  · intro c meta t now h
    simp [is_cache_valid, h, fromIso, CACHE_HOURS]
  · intro m now
    cases m <;> rfl
  · intro c now
    cases c <;> rfl
  · intro c now
    rfl

/-- Witness for C3 at a concrete fresh-by-one-second cache. -/
theorem c3_cache_ttl_witness :
    is_cache_valid ⟨some none, some (some (Json.obj [("cached_at", Json.num 0)]))⟩ 86399
      = decide ((86399 : Int) - 0 < 24 * 3600) :=
  c3_cache_ttl.1 none (Json.obj [("cached_at", Json.num 0)]) 0 86399 rfl

/-- C1: with a fresh cache and no force flag, load_schema and fetch_schema
return the parsed cached schema and report no network fetch; with a stale
or missing cache, fetch_schema performs the network fetch, writes the
downloaded schema to the cache file and writes a metadata file whose
cached_at field is the current timestamp. -/
theorem c1_schema_cache :
    (∀ (s : CacheState) (now : Int) (net : Option Json) (j : Json),
        is_cache_valid s now = true → s.cacheFile = some (some j) →
        load_schema s now net = Except.ok ⟨j, s, false⟩ ∧
        fetch_schema false s now net = Except.ok ⟨j, s, false⟩)
    ∧ (∀ (s : CacheState) (now : Int) (schema meta : Json),
        is_cache_valid s now = false →
        mkMeta schema now = some meta →
        fetch_schema false s now (some schema) =
          Except.ok ⟨schema, ⟨some (some schema), some (some meta)⟩, true⟩ ∧
        load_schema s now (some schema) = fetch_schema false s now (some schema) ∧
        meta.getKey "cached_at" = some (Json.num now)) := by
  constructor
  · intro s now net j hvalid hfile
    constructor
    · simp [load_schema, hvalid, hfile]
    · simp [fetch_schema, hvalid, hfile]
  · intro s now schema meta hstale hmeta
    refine ⟨?_, ?_, ?_⟩
    · simp [fetch_schema, hstale, hmeta]
    · simp [load_schema, hstale]
    · rcases h1 : pyDictGet schema "info" (Json.obj []) with _ | info <;>
        simp [mkMeta, h1, Option.bind] at hmeta
      rcases h2 : pyDictGet info "version" (Json.str "unknown") with _ | version <;>
        simp [h2, Option.bind] at hmeta
      rcases h3 : pyDictGet schema "paths" (Json.obj []) with _ | pathsJ <;>
        simp [h3, Option.bind] at hmeta
      rcases h4 : pyLen pathsJ with _ | n <;> simp [h4, Option.bind] at hmeta
      rw [← hmeta]
      show List.lookup "cached_at" _ = _
      exact lookup_head _ _ _

/-- Witness for C1: a one-day-old cache is refreshed, a fresh cache is
served without fetching. -/
theorem c1_schema_cache_witness :
    (load_schema ⟨some (some (Json.obj [])), some (some (Json.obj [("cached_at", Json.num 0)]))⟩
        10 none = Except.ok ⟨Json.obj [], ⟨some (some (Json.obj [])),
          some (some (Json.obj [("cached_at", Json.num 0)]))⟩, false⟩)
    ∧ (fetch_schema false ⟨none, none⟩ 86400 (some (Json.obj [])) =
        Except.ok ⟨Json.obj [], ⟨some (some (Json.obj [])),
          some (some (Json.obj [("cached_at", Json.num 86400), ("version", Json.str "unknown"),
            ("paths_count", Json.num 0)]))⟩, true⟩) :=
  ⟨(c1_schema_cache.1 ⟨some (some (Json.obj [])), some (some (Json.obj [("cached_at", Json.num 0)]))⟩
      10 none (Json.obj []) rfl rfl).1,
   (c1_schema_cache.2 ⟨none, none⟩ 86400 (Json.obj [])
      (Json.obj [("cached_at", Json.num 86400), ("version", Json.str "unknown"),
        ("paths_count", Json.num 0)]) rfl rfl).1⟩

/-- C5: when the network fetch raises and a cached schema file exists,
fetch_schema returns the parsed stale cache instead of failing; when it
raises and no cached file exists, the error propagates to the caller. -/
theorem c5_stale_fallback :
    (∀ (force : Bool) (s : CacheState) (now : Int) (j : Json),
        s.cacheFile = some (some j) →
        (force = true ∨ is_cache_valid s now = false) →
        fetch_schema force s now none = Except.ok ⟨j, s, true⟩)
    ∧ (∀ (force : Bool) (m : Option (Option Json)) (now : Int),
        fetch_schema force ⟨none, m⟩ now none = Except.error ()) := by
  constructor
  · intro force s now j hfile hdisj
    have hcond : (!force && is_cache_valid s now) = false := by
      rcases hdisj with h | h <;> simp [h]
    simp [fetch_schema, hcond, fetchFallback, hfile]
  · intro force m now
    cases force <;> cases m <;> rfl

/-- Witness for C5: a forced fetch whose download fails falls back to the
existing cache; with no cache file the error propagates. -/
theorem c5_stale_fallback_witness :
    (fetch_schema true ⟨some (some (Json.obj [])), none⟩ 0 none =
        Except.ok ⟨Json.obj [], ⟨some (some (Json.obj [])), none⟩, true⟩)
    ∧ fetch_schema false ⟨none, none⟩ 0 none = Except.error () :=
  ⟨c5_stale_fallback.1 true ⟨some (some (Json.obj [])), none⟩ 0 (Json.obj []) rfl (Or.inl rfl),
   c5_stale_fallback.2 false none 0⟩

/-! ## Claims about the API forwarder -/

/-- C4: the authentication headers come from exactly one of the two
mutually exclusive credential schemes: Bearer token when the token variable
is set (to a non-empty value), else key plus email when both are set, and
never headers of both schemes mixed; with neither scheme fully configured
the headers are empty and make_request refuses the call with a failure
result, issuing no request. -/
theorem c4_auth_scheme_exclusive :
    (∀ (env : Env) (tok : String), env.token = some tok → tok ≠ "" →
        get_auth_headers env = [("Authorization", "Bearer " ++ tok)])
    ∧ (∀ (env : Env) (k e : String), truthyStr env.token = false →
        env.apiKey = some k → k ≠ "" → env.email = some e → e ≠ "" →
        get_auth_headers env = [("X-Auth-Key", k), ("X-Auth-Email", e)])
    ∧ (∀ env : Env, truthyStr env.token = false →
        (truthyStr env.apiKey && truthyStr env.email) = false →
        get_auth_headers env = [] ∧
        ∀ (m p : String) (b : Option String) (http : Request → HttpOutcome),
          (make_request env m p b http).2 = none ∧
          (make_request env m p b http).1.getKey "success" = some (Json.bool false))
    ∧ (∀ env : Env,
        ((List.lookup "Authorization" (get_auth_headers env)).isSome &&
         (List.lookup "X-Auth-Key" (get_auth_headers env)).isSome) = false) := by
  refine ⟨?_, ?_, ?_, ?_⟩
  · intro env tok htok hne
    simp [get_auth_headers, htok, truthy_some tok hne]
  · intro env k e htok hk hkne he hene
    simp [get_auth_headers, htok, hk, he, truthy_some k hkne, truthy_some e hene]
  · intro env htok hkeys
    have hempty : get_auth_headers env = [] := by
      simp [get_auth_headers, htok, hkeys]
    refine ⟨hempty, ?_⟩
    intro m p b http
    have hca : check_auth env = (false, noAuthMsg) := by
      simp [check_auth, hempty]
    constructor
    · simp [make_request, hca]
    · simp [make_request, hca, Json.getKey]
  · intro env
    unfold get_auth_headers
    split_ifs <;> simp [List.lookup]

/-- Witness for C4 exercising both schemes and the refusal case. -/
theorem c4_auth_scheme_exclusive_witness :
    (get_auth_headers ⟨some "t", none, none, none⟩ = [("Authorization", "Bearer " ++ "t")])
    ∧ (get_auth_headers ⟨none, some "k", some "e", none⟩ =
        [("X-Auth-Key", "k"), ("X-Auth-Email", "e")])
    ∧ (get_auth_headers ⟨some "", some "k", none, none⟩ = []) :=
  ⟨c4_auth_scheme_exclusive.1 ⟨some "t", none, none, none⟩ "t" rfl (by decide),
   c4_auth_scheme_exclusive.2.1 ⟨none, some "k", some "e", none⟩ "k" "e" rfl rfl
     (by decide) rfl (by decide),
   (c4_auth_scheme_exclusive.2.2.1 ⟨some "", some "k", none, none⟩ rfl rfl).1⟩

/-- C9: a path argument beginning with "http" is used verbatim as the full
request URL, the configured base URL being ignored; any other path has a
leading slash added when missing and the request URL is the base URL
followed by the path. -/
theorem c9_url_selection
    (env : Env) (m p : String) (b : Option String) (http : Request → HttpOutcome)
    (hauth : (check_auth env).1 = true) :
    ∃ req : Request, (make_request env m p b http).2 = some req ∧
      req.method = m ∧
      (pyStartsWith p "http" = true → req.url = p) ∧
      (pyStartsWith p "http" = false →
        req.url = BASE_URL env ++ (if pyStartsWith p "/" then p else "/" ++ p)) := by
  refine ⟨⟨m,
    if pyStartsWith p "http" then p
    else if pyStartsWith p "/" then BASE_URL env ++ p
    else BASE_URL env ++ ("/" ++ p),
    get_auth_headers env ++ [("Content-Type", "application/json")],
    match b with
    | some s => if s.isEmpty then none else some s
    | none => none⟩, ?_, rfl, ?_, ?_⟩
  · simp only [make_request, hauth]
    rfl
  · intro h
    simp [h]
  · intro h
    by_cases h2 : pyStartsWith p "/" <;> simp [h, h2]

/-- Witness for C9 at a bare path with token auth configured. -/
theorem c9_url_selection_witness :
    ∃ req : Request,
      (make_request ⟨some "t", none, none, none⟩ "GET" "zones" none
        (fun _ => HttpOutcome.ok HttpBody.empty)).2 = some req ∧
      req.method = "GET" ∧
      (pyStartsWith "zones" "http" = true → req.url = "zones") ∧
      (pyStartsWith "zones" "http" = false →
        req.url = BASE_URL ⟨some "t", none, none, none⟩ ++
          (if pyStartsWith "zones" "/" then "zones" else "/" ++ "zones")) :=
  c9_url_selection ⟨some "t", none, none, none⟩ "GET" "zones" none
    (fun _ => HttpOutcome.ok HttpBody.empty) rfl

theorem method_ne_verify (c : String) (h : httpMethods.contains c = true) :
    (c == "VERIFY") = false := by
  have hmem : c ∈ httpMethods := List.mem_of_elem_eq_true h
  simp [httpMethods] at hmem
  rcases hmem with h2 | h2 | h2 | h2 | h2 <;> subst h2 <;> decide

theorem make_request_auth_ok
    (env : Env) (m p : String) (b : Option String) (http : Request → HttpOutcome)
    (hauth : (check_auth env).1 = true) (hp : pyStartsWith p "http" = false) :
    make_request env m p b http =
      (responseToJson (http ⟨m, BASE_URL env ++ (if pyStartsWith p "/" then p else "/" ++ p),
          get_auth_headers env ++ [("Content-Type", "application/json")],
          match b with
          | some s => if s.isEmpty then none else some s
          | none => none⟩),
       some ⟨m, BASE_URL env ++ (if pyStartsWith p "/" then p else "/" ++ p),
          get_auth_headers env ++ [("Content-Type", "application/json")],
          match b with
          | some s => if s.isEmpty then none else some s
          | none => none⟩) := by
  by_cases h2 : pyStartsWith p "/" <;> simp [make_request, hauth, hp, h2]

/-- C2 counterexample: with credentials configured, the path argument
"httpx" makes the forwarder issue the request to the URL "httpx" verbatim,
which is not the configured base URL followed by the path (with or without
a joining slash), so the claim as universally stated over paths fails. -/
theorem c2_counterexample_http_path :
    ((make_request ⟨some "t", none, none, none⟩ "GET" "httpx" none
        (fun _ => HttpOutcome.ok HttpBody.empty)).2.map Request.url = some "httpx")
    ∧ "httpx" ≠ BASE_URL ⟨some "t", none, none, none⟩ ++ "httpx"
    ∧ "httpx" ≠ BASE_URL ⟨some "t", none, none, none⟩ ++ "/httpx" :=
  ⟨rfl, by decide, by decide⟩

/-- C2 amended: for every invocation with configured credentials, a
supported method, a path not beginning with "http", and a body argument
that is absent, empty, or valid JSON, the forwarder issues exactly that
HTTP method (uppercased) to the URL formed from the configured base URL
followed by the path (a leading slash added when missing), with the
authentication headers of the configured scheme, and the process exit code
is 0 exactly when the returned result reports success. -/
theorem c2_request_dispatch
    (env : Env) (cmdArg path : String) (bodyArg : Option String)
    (jparse : String → Option Json) (http : Request → HttpOutcome)
    (hauth : (check_auth env).1 = true)
    (hm : httpMethods.contains (pyUpper cmdArg) = true)
    (hpath : pyStartsWith path "http" = false)
    (hbody : bodyArg = none ∨ bodyArg = some "" ∨
      ∃ b, bodyArg = some b ∧ (jparse b).isSome = true) :
    ∃ req : Request,
      (cfApiMain env (cmdArg :: path :: bodyArg.toList) jparse http).request = some req ∧
      req.method = pyUpper cmdArg ∧
      req.url = BASE_URL env ++ (if pyStartsWith path "/" then path else "/" ++ path) ∧
      req.headers = get_auth_headers env ++ [("Content-Type", "application/json")] ∧
      (cfApiMain env (cmdArg :: path :: bodyArg.toList) jparse http).exitCode =
        (if successTruthy (responseToJson (http req)) then 0 else 1) := by
  have hveq := method_ne_verify (pyUpper cmdArg) hm
  have hmem : pyUpper cmdArg ∈ httpMethods := List.mem_of_elem_eq_true hm
  have hmain : cfApiMain env (cmdArg :: path :: bodyArg.toList) jparse http =
      ⟨if successTruthy (make_request env (pyUpper cmdArg) path bodyArg http).1 then 0 else 1,
       (make_request env (pyUpper cmdArg) path bodyArg http).2⟩ := by
    rcases hbody with h | h | ⟨b, hb, hj⟩
    · subst h
      simp [cfApiMain, hveq, hmem]
    · subst h
      have h0 : "".isEmpty = true := rfl
      simp [cfApiMain, hveq, hmem, h0]
    · subst hb
      rcases hjs : jparse b with _ | v
      · rw [hjs] at hj
        cases hj
      · simp [cfApiMain, hveq, hmem, hjs]
  rw [hmain, make_request_auth_ok env (pyUpper cmdArg) path bodyArg http hauth hpath]
  exact ⟨_, rfl, rfl, rfl, rfl, rfl⟩

/-- Witness for C2 amended: a GET of a bare path under token auth, the
oracle answering with a parsed success body, exits 0. -/
theorem c2_request_dispatch_witness :
    ∃ req : Request,
      (cfApiMain ⟨some "t", none, none, none⟩ ["get", "zones"] (fun _ => none)
        (fun _ => HttpOutcome.ok HttpBody.empty)).request = some req ∧
      req.method = pyUpper "get" ∧
      req.url = BASE_URL ⟨some "t", none, none, none⟩ ++
        (if pyStartsWith "zones" "/" then "zones" else "/" ++ "zones") ∧
      req.headers = get_auth_headers ⟨some "t", none, none, none⟩ ++
        [("Content-Type", "application/json")] ∧
      (cfApiMain ⟨some "t", none, none, none⟩ ["get", "zones"] (fun _ => none)
        (fun _ => HttpOutcome.ok HttpBody.empty)).exitCode =
        (if successTruthy (responseToJson ((fun _ => HttpOutcome.ok HttpBody.empty) req))
          then 0 else 1) :=
  c2_request_dispatch ⟨some "t", none, none, none⟩ "get" "zones" none
    (fun _ => none) (fun _ => HttpOutcome.ok HttpBody.empty)
    rfl (by decide) (by decide) (Or.inl rfl)

/-- C10 counterexample: the body argument "" is not valid JSON
(`json.loads` raises on it; the parse oracle here maps every string to
`none`), yet the truthiness test `if body:` skips validation, the HTTP
request is issued, and the process exits 0. -/
theorem c10_counterexample_empty_body :
    ((cfApiMain ⟨some "t", none, none, none⟩ ["POST", "/zones", ""] (fun _ => none)
        (fun _ => HttpOutcome.ok HttpBody.empty)).request.isSome = true)
    ∧ ((fun (_ : String) => (none : Option Json)) "" = none)
    ∧ ((cfApiMain ⟨some "t", none, none, none⟩ ["POST", "/zones", ""] (fun _ => none)
        (fun _ => HttpOutcome.ok HttpBody.empty)).exitCode = 0) :=
  ⟨rfl, rfl, rfl⟩

/-- C10 amended: for every invocation with a supported method, a path and a
nonempty body argument that is not valid JSON, the process exits with code
1 without issuing any HTTP request (an empty body argument instead skips
validation and is forwarded as a request with no body). -/
theorem c10_invalid_body_rejected
    (env : Env) (cmdArg path b : String) (extra : List String)
    (jparse : String → Option Json) (http : Request → HttpOutcome)
    (hm : httpMethods.contains (pyUpper cmdArg) = true)
    (hb : b ≠ "") (hj : jparse b = none) :
    cfApiMain env (cmdArg :: path :: b :: extra) jparse http = ⟨1, none⟩ := by
  have hveq := method_ne_verify (pyUpper cmdArg) hm
  have hmem : pyUpper cmdArg ∈ httpMethods := List.mem_of_elem_eq_true hm
  have hbe : b.isEmpty = false := by
    cases hh : b.isEmpty
    · rfl
    · exact absurd ((String.isEmpty_iff b).mp hh) hb
  simp [cfApiMain, hveq, hmem, hj, hbe]

/-- Witness for C10 amended: a malformed nonempty body is rejected with
exit code 1 and no request. -/
theorem c10_invalid_body_rejected_witness :
    cfApiMain ⟨some "t", none, none, none⟩ ["POST", "/zones", "not json"] (fun _ => none)
      (fun _ => HttpOutcome.ok HttpBody.empty) = ⟨1, none⟩ :=
  c10_invalid_body_rejected ⟨some "t", none, none, none⟩ "POST" "/zones" "not json" []
    (fun _ => none) (fun _ => HttpOutcome.ok HttpBody.empty) (by decide) (by decide) rfl

/-! ## Claims about the schema queries -/

/-- C7: the endpoint lookup returns the entry for the exact requested path
when it is a key of the schema's paths; otherwise the entry for the path
with a leading slash added when that variant is a key; otherwise the entry
of some (the first) schema path containing the requested path as a
substring; otherwise None. -/
theorem c7_endpoint_lookup
    (path : String) (schema : Json) (ps : List (String × Json))
    (hp : pyDictGet schema "paths" (Json.obj []) = some (Json.obj ps)) :
    (∀ ms, List.lookup path ps = some ms →
        get_endpoint path schema =
          some (some (Json.obj [("path", Json.str path), ("methods", ms)])))
    ∧ (∀ ms, List.lookup path ps = none →
        List.lookup (if pyStartsWith path "/" then path else "/" ++ path) ps = some ms →
        get_endpoint path schema =
          some (some (Json.obj [("path",
            Json.str (if pyStartsWith path "/" then path else "/" ++ path)),
            ("methods", ms)])))
    ∧ (∀ kv, List.lookup path ps = none →
        List.lookup (if pyStartsWith path "/" then path else "/" ++ path) ps = none →
        ps.find? (fun kv2 => containsSub kv2.1 path) = some kv →
        get_endpoint path schema =
          some (some (Json.obj [("path", Json.str kv.1), ("methods", kv.2)])) ∧
        containsSub kv.1 path = true)
    ∧ (List.lookup path ps = none →
        List.lookup (if pyStartsWith path "/" then path else "/" ++ path) ps = none →
        ps.find? (fun kv2 => containsSub kv2.1 path) = none →
        get_endpoint path schema = some none) := by
  refine ⟨?_, ?_, ?_, ?_⟩
  · intro ms h1
    simp [get_endpoint, hp, Json.asObj, Option.bind, h1]
  · intro ms h1 h2
    simp [get_endpoint, hp, Json.asObj, Option.bind, h1, h2]
  · intro kv h1 h2 h3
    refine ⟨?_, ?_⟩
    · simp [get_endpoint, hp, Json.asObj, Option.bind, h1, h2, h3]
    · have := List.find?_some h3
      simpa using this
  · intro h1 h2 h3
    simp [get_endpoint, hp, Json.asObj, Option.bind, h1, h2, h3]

/-- Witness for C7 at a one-entry schema with an exact match. -/
theorem c7_endpoint_lookup_witness :
    get_endpoint "/zones" (Json.obj [("paths", Json.obj [("/zones", Json.obj [])])]) =
      some (some (Json.obj [("path", Json.str "/zones"), ("methods", Json.obj [])])) :=
  (c7_endpoint_lookup "/zones" (Json.obj [("paths", Json.obj [("/zones", Json.obj [])])])
    [("/zones", Json.obj [])] rfl).1 (Json.obj []) rfl

theorem getStrD_of_ok (spec : Json) (k : String) (h : strFieldOk spec k = true) :
    getStrD spec k "" = some (strFieldD spec k) := by
  unfold strFieldOk at h
  unfold getStrD strFieldD
  rcases hk : spec.getKey k with _ | v
  · rfl
  · rw [hk] at h
    cases v <;> simp_all

theorem searchRow_eq_claim (ql p m : String) (spec : Json)
    (h : wfMethodEntry (m, spec) = true) :
    searchRow ql p m spec = some (claimSearchRow ql p m spec) := by
  unfold wfMethodEntry at h
  by_cases h1 : pyStartsWith m "x-"
  · simp [searchRow, claimSearchRow, h1]
  · by_cases h2 : (m == "parameters")
    · simp [searchRow, claimSearchRow, h1, h2]
    · by_cases h3 : spec.isObj
      · have hwf : wfSpecFields spec = true := by
          simp [h1, h2, h3] at h
          exact h
        unfold wfSpecFields at hwf
        have hs : strFieldOk spec "summary" = true := by
          rcases Bool.and_eq_true_iff.mp hwf with ⟨hl, _⟩
          exact (Bool.and_eq_true_iff.mp hl).1
        have hd : strFieldOk spec "description" = true := by
          rcases Bool.and_eq_true_iff.mp hwf with ⟨hl, _⟩
          exact (Bool.and_eq_true_iff.mp hl).2
        have ho : strFieldOk spec "operationId" = true :=
          (Bool.and_eq_true_iff.mp hwf).2
        simp [searchRow, claimSearchRow, h1, h2, h3,
          getStrD_of_ok spec _ hs, getStrD_of_ok spec _ hd, getStrD_of_ok spec _ ho]
        split <;> rfl
      · simp [searchRow, claimSearchRow, h1, h2, h3]

theorem searchMethods_eq_claim (ql p : String) (ms : List (String × Json))
    (h : ms.all wfMethodEntry = true) :
    searchMethods ql p ms =
      some (ms.filterMap (fun kv => claimSearchRow ql p kv.1 kv.2)) := by
  induction ms with
  | nil => rfl
  | cons kv rest ih =>
    rw [List.all_cons, Bool.and_eq_true_iff] at h
    rcases kv with ⟨m, spec⟩
    have hrow := searchRow_eq_claim ql p m spec h.1
    rw [List.filterMap_cons]
    simp only [searchMethods, hrow, ih h.2, Option.bind]
    cases claimSearchRow ql p m spec <;> rfl

theorem searchPaths_eq_claim (ql : String) (ps : List (String × Json))
    (h : wfPaths ps = true) :
    searchPaths ql ps = some (claimSearch ql ps) := by
  induction ps with
  | nil => rfl
  | cons pm rest ih =>
    unfold wfPaths at h ih
    rw [List.all_cons, Bool.and_eq_true_iff] at h
    rcases pm with ⟨p, methodsJ⟩
    have h1 := h.1
    unfold wfPathEntry at h1
    rw [Bool.and_eq_true_iff] at h1
    rcases methodsJ with _ | b | n | s | xs | kvs <;> simp [Json.isObj] at h1
    have hms : List.all kvs wfMethodEntry = true := by
      simpa [Json.asObj] using h1
    simp [searchPaths, Json.asObj, Option.bind, searchMethods_eq_claim ql p kvs hms,
      ih h.2, claimSearch, List.flatMap_cons]

/-- C6: for every schema whose paths table is a dict of dicts with
string-valued searched fields, the search returns exactly the claim-side
result list: one row per (path, method) pair, skipping x- method keys, the
parameters key and non-dict specs, included exactly when the lowercased
query occurs in the space-joined lowercased concatenation of path,
summary, description and operationId, each row carrying the path, the
uppercased method, the summary truncated to 100 characters plus "..." when
longer, and the operationId. -/
theorem c6_search_characterisation
    (query : String) (schema : Json) (ps : List (String × Json))
    (hp : pyDictGet schema "paths" (Json.obj []) = some (Json.obj ps))
    (hwf : wfPaths ps = true) :
    search_endpoints query schema = some (claimSearch (pyLower query) ps) := by
  simp only [search_endpoints, hp, Json.asObj, Option.bind]
  exact searchPaths_eq_claim (pyLower query) ps hwf

/-- Witness for C6 at a small concrete schema. -/
theorem c6_search_characterisation_witness :
    search_endpoints "zones" (Json.obj [("paths", Json.obj [("/zones",
        Json.obj [("get", Json.obj [("summary", Json.str "List Zones")])])])]) =
      some (claimSearch (pyLower "zones")
        [("/zones", Json.obj [("get", Json.obj [("summary", Json.str "List Zones")])])]) :=
  c6_search_characterisation "zones"
    (Json.obj [("paths", Json.obj [("/zones",
      Json.obj [("get", Json.obj [("summary", Json.str "List Zones")])])])])
    [("/zones", Json.obj [("get", Json.obj [("summary", Json.str "List Zones")])])]
    rfl (by decide)

theorem expandRefs_base (s : Json) (d : Int) (obj : Json) (hd : d ≤ 0) :
    expandRefs s d obj = some obj := by
  rw [expandRefs.eq_def]
  simp [hd]

theorem expandRefs_singleton (s : Json) (r : String) (d : Int) (hd : 0 < d) :
    expandRefs s d (Json.obj [("$ref", Json.str r)]) =
      expandRefs s (d - 1) (resolve_ref r s) := by
  rw [expandRefs.eq_def]
  have h0 : ¬ (d ≤ 0) := by omega
  simp [h0, isRefSingleton, lookup_head]

theorem expandRefs_selfLoop_aux (n : Nat) :
    ∀ d : Int, d.toNat ≤ n →
      expandRefs (Json.obj [("a", Json.obj [("$ref", Json.str "#/a")])]) d
        (Json.obj [("$ref", Json.str "#/a")]) =
        some (Json.obj [("$ref", Json.str "#/a")]) := by
  induction n with
  | zero =>
    intro d hd
    exact expandRefs_base _ d _ (by omega)
  | succ n ih =>
    intro d hd
    by_cases h0 : d ≤ 0
    · exact expandRefs_base _ d _ h0
    · have hres : resolve_ref "#/a" (Json.obj [("a", Json.obj [("$ref", Json.str "#/a")])]) =
          Json.obj [("$ref", Json.str "#/a")] := rfl
      rw [expandRefs_singleton _ _ d (by omega), hres]
      exact ih (d - 1) (by omega)

/-- C8: ref expansion is bounded-depth and total: with depth at most 0 the
input comes back unchanged; a singleton reference object is replaced by its
resolution at decremented depth, so even a self-referential ref chain
terminates once the depth is spent; external refs and refs whose descent
fails come back as plain objects instead of raising. -/
theorem c8_ref_expansion :
    (∀ (e s : Json) (d : Int), d ≤ 0 → expand_endpoint_spec e s d = some e)
    ∧ (∀ (s : Json) (r : String) (d : Int), 0 < d →
        expandRefs s d (Json.obj [("$ref", Json.str r)]) =
          expandRefs s (d - 1) (resolve_ref r s))
    ∧ (∀ (r : String) (s : Json), pyStartsWith r "#/" = false →
        resolve_ref r s = Json.obj [("$ref", Json.str r)])
    ∧ (∀ (ref part : String) (rest : List String) (cur : Json),
        cur.getKey part = none →
        resolveGo ref (part :: rest) cur =
          Json.obj [("$ref", Json.str ref), ("_error", Json.str "Could not resolve")])
    ∧ (∀ d : Int,
        expandRefs (Json.obj [("a", Json.obj [("$ref", Json.str "#/a")])]) d
          (Json.obj [("$ref", Json.str "#/a")]) =
          some (Json.obj [("$ref", Json.str "#/a")])) := by
  refine ⟨?_, ?_, ?_, ?_, ?_⟩
  · intro e s d hd
    simp [expand_endpoint_spec, hd]
  · intro s r d hd
    exact expandRefs_singleton s r d hd
  · intro r s h
    simp [resolve_ref, h]
  · intro ref part rest cur h
    rcases cur with _ | b | n | s2 | xs | kvs
    · rfl
    · rfl
    · rfl
    · rfl
    · rfl
    · simp only [Json.getKey] at h
      simp [resolveGo, h]
  · intro d
    exact expandRefs_selfLoop_aux d.toNat d le_rfl

/-- Witness for C8 exercising every conjunct at concrete inputs. -/
theorem c8_ref_expansion_witness :
    (expand_endpoint_spec (Json.str "x") Json.null 0 = some (Json.str "x"))
    ∧ (expandRefs Json.null 1 (Json.obj [("$ref", Json.str "ext")]) =
        expandRefs Json.null 0 (resolve_ref "ext" Json.null))
    ∧ (resolve_ref "ext" Json.null = Json.obj [("$ref", Json.str "ext")])
    ∧ (resolveGo "#/x" ["x"] Json.null =
        Json.obj [("$ref", Json.str "#/x"), ("_error", Json.str "Could not resolve")])
    ∧ (expandRefs (Json.obj [("a", Json.obj [("$ref", Json.str "#/a")])]) 2
        (Json.obj [("$ref", Json.str "#/a")]) = some (Json.obj [("$ref", Json.str "#/a")])) :=
  ⟨c8_ref_expansion.1 (Json.str "x") Json.null 0 (by decide),
   c8_ref_expansion.2.1 Json.null "ext" 1 (by decide),
   c8_ref_expansion.2.2.1 "ext" Json.null (by decide),
   c8_ref_expansion.2.2.2.1 "#/x" "x" [] Json.null rfl,
   c8_ref_expansion.2.2.2.2 2⟩

end CfVerify
